import Mathlib

/-!
# StudyMate: verification of the vector-store pipeline

A shallow embedding of the StudyMate retrieval pipeline: the in-memory
vector store (`SimpleVectorStore`) with cosine-similarity search, and the
upload/query orchestration from `app.py`.  The store itself
(`vector_store.py`) and the collaborators (`utils.py`) are not part of the
source snapshot, so their definitions are modelled from the specification;
the orchestration loop is translated from `app.py`.

Similarity scores are floating-point numbers in the implementation; here
they are idealised as real numbers.  All score *comparisons* performed by
the ranking are nevertheless computed by exact rational arithmetic
(`simGE`), proven to agree with the real-valued cosine scores
(`simGE_iff_scoreVal`), so every operational definition is executable.
-/

namespace StudyMate

/-- An embedding vector, represented as a list of (exact) numbers. -/
abbrev Vec := List ℚ

/-- Metadata record attached to each stored embedding (app.py line 144):
the owning document's name, the chunk's zero-based index, the chunk text. -/
structure Metadata where
  document : String
  chunk_index : ℕ
  text : String
  deriving Repr, DecidableEq

/-- Modelled from the spec: the state of `SimpleVectorStore`
(`vector_store.py` is not in the source snapshot).  It holds
(embedding, metadata) entries, appended in insertion order. -/
structure SimpleVectorStore where
  entries : List (Vec × Metadata)
  deriving Repr, DecidableEq

/-- A store is created empty at session start. -/
def SimpleVectorStore.empty : SimpleVectorStore := ⟨[]⟩

/-- Dot product of two vectors (componentwise, stopping at the shorter). -/
def dot : Vec → Vec → ℚ
  | [], _ => 0
  | _, [] => 0
  | a :: as, b :: bs => a * b + dot as bs

/-- Squared Euclidean norm. -/
def normSq (v : Vec) : ℚ := dot v v

/-- The real-valued similarity score determined by the rational data of a
hit: `qn` is the squared norm of the query, `d` the dot product of query
and entry, `n` the squared norm of the entry; the value is
`d / (sqrt qn * sqrt n)`, with the spec's special case that an entry of
zero norm scores exactly `0`. -/
noncomputable def scoreVal (qn d n : ℚ) : ℝ :=
  if n = 0 then 0 else (d : ℝ) / (Real.sqrt (qn : ℝ) * Real.sqrt (n : ℝ))

/-- Modelled from the spec: cosine similarity
`dot(a,b) / (norm(a) * norm(b))`, with similarity `0` for a stored
embedding of zero norm (the explicit division-by-zero guard). -/
noncomputable def cosineSim (q e : Vec) : ℝ :=
  scoreVal (normSq q) (dot q e) (normSq e)

/-- Decide, in exact rational arithmetic, whether the similarity score
determined by `(d₁, n₁)` is at least the one determined by `(d₂, n₂)`,
for a query of squared norm `qn`.  `simGE_iff_scoreVal` proves this
agrees with comparison of the real-valued scores. -/
def simGE (qn d₁ n₁ d₂ n₂ : ℚ) : Bool :=
  let e₁ : ℚ := if 0 < qn ∧ 0 < n₁ then d₁ else 0
  let m₁ : ℚ := if 0 < qn ∧ 0 < n₁ then n₁ else 1
  let e₂ : ℚ := if 0 < qn ∧ 0 < n₂ then d₂ else 0
  let m₂ : ℚ := if 0 < qn ∧ 0 < n₂ then n₂ else 1
  if 0 ≤ e₁ then
    if 0 ≤ e₂ then decide (e₂ ^ 2 * m₁ ≤ e₁ ^ 2 * m₂) else true
  else
    if 0 ≤ e₂ then false else decide (e₁ ^ 2 * m₂ ≤ e₂ ^ 2 * m₁)

/-- One search hit: the rational data determining its similarity score
(`d` = dot of query and entry, `n` = squared norm of the entry), the
entry's insertion index, and its metadata record. -/
structure Hit where
  d : ℚ
  n : ℚ
  idx : ℕ
  metadata : Metadata
  deriving Repr, DecidableEq

/-- Ranking order used by search: strictly higher score first, ties broken
by insertion index (earlier first). -/
def hitLE (qn : ℚ) (a b : Hit) : Bool :=
  if simGE qn a.d a.n b.d b.n then
    if simGE qn b.d b.n a.d a.n then decide (a.idx ≤ b.idx) else true
  else false

/-- The ranking order as a decidable relation. -/
def hitBefore (qn : ℚ) (a b : Hit) : Prop := hitLE qn a b = true

instance (qn : ℚ) (a b : Hit) : Decidable (hitBefore qn a b) :=
  inferInstanceAs (Decidable (hitLE qn a b = true))

/-- Modelled from the spec: the full ranking of the stored entries for a
query — every entry scored against the query, sorted by descending
similarity with ties in insertion order. -/
def SimpleVectorStore.rank (s : SimpleVectorStore) (q : Vec) : List Hit :=
  let scored := s.entries.enum.map fun p =>
    Hit.mk (dot q p.2.1) (normSq p.2.1) p.1 p.2.2
  List.insertionSort (hitBefore (normSq q)) scored

/-- Modelled from the spec: `search(query_embedding, top_k)` returns the
top `min(top_k, store_size)` entries of the ranking, each carrying the
data of its similarity score plus its metadata record. -/
def SimpleVectorStore.search (s : SimpleVectorStore) (q : Vec) (top_k : ℕ) :
    List Hit :=
  (s.rank q).take top_k

/-- Modelled from the spec: `add(embeddings, metadatas)` appends the
positionally zipped pairs; mismatched lengths fail fast with a
length-mismatch error and change nothing. -/
def SimpleVectorStore.add (s : SimpleVectorStore) (embeddings : List Vec)
    (metadatas : List Metadata) : Except String SimpleVectorStore :=
  if embeddings.length = metadatas.length then
    Except.ok ⟨s.entries ++ embeddings.zip metadatas⟩
  else
    Except.error ("length mismatch")

/-- Modelled from the spec: `reset()` discards all entries. -/
def SimpleVectorStore.reset (_s : SimpleVectorStore) : SimpleVectorStore :=
  ⟨[]⟩

/-! ## The session orchestrator (translated from app.py) -/

/-- An uploaded file, abstracted to its name and raw content. -/
structure UploadedFile where
  name : String
  content : String
  deriving Repr, DecidableEq

/-- A session document record (app.py lines 152-157). -/
structure DocRecord where
  name : String
  length : ℕ
  chunks : ℕ
  uploaded_at : String
  deriving Repr, DecidableEq

/-- The session state relevant to the pipeline: the vector store and the
document list (app.py lines 60-63). -/
structure Session where
  vs : SimpleVectorStore
  documents : List DocRecord
  deriving Repr, DecidableEq

/-- Session state as initialised at session start (app.py lines 60-63). -/
def initSession : Session := ⟨SimpleVectorStore.empty, []⟩

/-- Outcome of processing one uploaded file, mirroring the message the
loop body reports for it (app.py lines 124-158); `ok` means the file
reached the end of the loop body and was counted as processed. -/
inductive FileOutcome where
  | extractError (msg : String)
  | noText (msg : String)
  | embedError (msg : String)
  | addError (msg : String)
  | ok
  deriving Repr, DecidableEq

/-- The external collaborators (`utils.py` is not in the source snapshot,
and the generator/embedder call external services): text extraction,
chunking, batch embedding, answer generation, and the current time string.
Fallible collaborators return `Except`, modelling raised exceptions. -/
structure Collab where
  extract : UploadedFile → Except String (String × String)
  chunk : String → List String
  embed : List String → Except String (List Vec)
  generate : String → List (String × String) → Except String String
  now : String

/-- The metadata records built for one file's chunks (app.py line 144):
document name, zero-based chunk index, chunk text. -/
def mkMetadatas (docName : String) (chunks : List String) : List Metadata :=
  chunks.enum.map fun p => ⟨docName, p.1, p.2⟩

/-- One iteration of the upload loop (app.py lines 124-158): extract the
text, skip the file if the text is empty, chunk, embed, add to the store,
and only then append the document record. -/
def processFile (C : Collab) (st : Session) (uf : UploadedFile) :
    Session × FileOutcome :=
  match C.extract uf with
  | Except.error e =>
      (st, FileOutcome.extractError
        (("Error extracting text from ") ++ uf.name ++ (": ") ++ e))
  | Except.ok (text, _ftype) =>
      if text = "" then
        (st, FileOutcome.noText (("No text found in ") ++ uf.name))
      else
        let chunks := C.chunk text
        match C.embed chunks with
        | Except.error e =>
            (st, FileOutcome.embedError
              (("Error generating embeddings for ") ++ uf.name ++ (": ") ++ e))
        | Except.ok embeddings =>
            match st.vs.add embeddings (mkMetadatas uf.name chunks) with
            | Except.error e =>
                (st, FileOutcome.addError
                  (("Error adding vectors for ") ++ uf.name ++ (": ") ++ e))
            | Except.ok vs' =>
                ({ vs := vs',
                   documents := st.documents ++
                     [⟨uf.name, text.length, chunks.length, C.now⟩] },
                 FileOutcome.ok)

/-- The upload loop over a whole batch (app.py lines 124-158): each file is
processed in turn, and a failing file reports its outcome while the loop
continues with the next file. -/
def processFiles (C : Collab) (st : Session) :
    List UploadedFile → Session × List FileOutcome
  | [] => (st, [])
  | uf :: rest =>
      let r := processFile C st uf
      let rs := processFiles C r.1 rest
      (rs.1, r.2 :: rs.2)

/-- The `processed` counter (app.py lines 121, 158, 161): the number of
files whose processing reached the end of the loop body. -/
def processedCount (outcomes : List FileOutcome) : ℕ :=
  (outcomes.filter fun o => o = FileOutcome.ok).length

/-- The Clear All Data button handler (app.py lines 77-79): reset the
store and empty the document list. -/
def clearAll (st : Session) : Session :=
  { vs := st.vs.reset, documents := [] }

/-- Session/store consistency: the store holds exactly as many entries as
the document table accounts for through its per-document chunk counts. -/
def consistent (st : Session) : Prop :=
  st.vs.entries.length = (st.documents.map DocRecord.chunks).sum

/-- Streamlit slider semantics: the returned value is the user's choice
kept within `[lo, hi]`, or the default when the slider is untouched. -/
def sliderVal (lo hi dflt : ℕ) (choice : Option ℕ) : ℕ :=
  match choice with
  | none => dflt
  | some v => max lo (min v hi)

/-- The top_k slider of the question form (app.py line 172):
bounds 1 and 10, default 4. -/
def uiTopK (choice : Option ℕ) : ℕ := sliderVal 1 10 4 choice

/-- The retrieval step of the question form (app.py lines 179-185): embed
the question and search with the slider's top_k; any failure is caught,
reported, and yields no hits. -/
def queryStep (C : Collab) (st : Session) (question : String)
    (choice : Option ℕ) : List Hit × Option String :=
  match C.embed [question] with
  | Except.error e => ([], some (("Search error: ") ++ e))
  | Except.ok qs =>
      match qs with
      | [] => ([], some ("Search error: list index out of range"))
      | q :: _ => (st.vs.search q (uiTopK choice), none)

/-- The answer step (app.py lines 190-198): build the contexts from the
hits and generate an answer; on failure, report the error and substitute
the fixed error string for the answer, which is still displayed. -/
def answerFor (C : Collab) (question : String) (hits : List Hit) :
    String × Option String :=
  let contexts := hits.map fun h => (h.metadata.text, h.metadata.document)
  match C.generate question contexts with
  | Except.ok a => (a, none)
  | Except.error e =>
      (("Error: Unable to generate answer."),
        some (("Answer generation error: ") ++ e))

theorem dot_self_nonneg (v : Vec) : 0 ≤ dot v v := by
  induction v with
  | nil => simp [dot]
  | cons a as ih =>
      simp only [dot]
      exact add_nonneg (mul_self_nonneg a) ih

theorem normSq_nonneg (v : Vec) : 0 ≤ normSq v := dot_self_nonneg v

theorem scoreVal_eq (qn d n : ℚ) :
    scoreVal qn d n =
      if 0 < qn ∧ 0 < n then (d : ℝ) / (Real.sqrt (qn : ℝ) * Real.sqrt (n : ℝ))
      else 0 := by
  unfold scoreVal
  by_cases hn : n = 0
  · subst hn
    simp
  · by_cases h : 0 < qn ∧ 0 < n
    · rw [if_neg hn, if_pos h]
    · rw [if_neg hn, if_neg h]
      rcases not_and_or.mp h with hqn | hn'
      · have hq0 : Real.sqrt (qn : ℝ) = 0 :=
          Real.sqrt_eq_zero'.mpr (by exact_mod_cast le_of_not_lt hqn)
        rw [hq0, zero_mul, div_zero]
      · have hn0 : Real.sqrt (n : ℝ) = 0 :=
          Real.sqrt_eq_zero'.mpr (by exact_mod_cast le_of_not_lt hn')
        rw [hn0, mul_zero, div_zero]

theorem real_mul_sqrt_le_iff (x y a b : ℝ) (hx : 0 ≤ x) (hy : 0 ≤ y)
    (hb : 0 ≤ b) :
    x * Real.sqrt a ≤ y * Real.sqrt b ↔ x ^ 2 * a ≤ y ^ 2 * b := by
  rw [show x * Real.sqrt a = Real.sqrt (x ^ 2 * a) by
        rw [Real.sqrt_mul (sq_nonneg x), Real.sqrt_sq hx],
      show y * Real.sqrt b = Real.sqrt (y ^ 2 * b) by
        rw [Real.sqrt_mul (sq_nonneg y), Real.sqrt_sq hy],
      Real.sqrt_le_sqrt_iff (by positivity)]

theorem div_sqrt_le_div_sqrt_iff (x y c a b : ℝ) (hc : 0 < c) (ha : 0 < a)
    (hb : 0 < b) :
    x / (Real.sqrt c * Real.sqrt a) ≤ y / (Real.sqrt c * Real.sqrt b) ↔
      x * Real.sqrt b ≤ y * Real.sqrt a := by
  have hca : 0 < Real.sqrt c * Real.sqrt a :=
    mul_pos (Real.sqrt_pos.mpr hc) (Real.sqrt_pos.mpr ha)
  have hcb : 0 < Real.sqrt c * Real.sqrt b :=
    mul_pos (Real.sqrt_pos.mpr hc) (Real.sqrt_pos.mpr hb)
  rw [div_le_div_iff₀ hca hcb,
    show x * (Real.sqrt c * Real.sqrt b) = Real.sqrt c * (x * Real.sqrt b) by
      ring,
    show y * (Real.sqrt c * Real.sqrt a) = Real.sqrt c * (y * Real.sqrt a) by
      ring,
    mul_le_mul_left (Real.sqrt_pos.mpr hc)]


theorem simGE_iff_scoreVal (qn d₁ n₁ d₂ n₂ : ℚ) :
    simGE qn d₁ n₁ d₂ n₂ = true ↔ scoreVal qn d₂ n₂ ≤ scoreVal qn d₁ n₁ := by
  rw [scoreVal_eq, scoreVal_eq]
  by_cases hq : 0 < qn
  · by_cases hn₁ : 0 < n₁ <;> by_cases hn₂ : 0 < n₂
    · have hqR : (0 : ℝ) < (qn : ℝ) := by exact_mod_cast hq
      have hn₁R : (0 : ℝ) < (n₁ : ℝ) := by exact_mod_cast hn₁
      have hn₂R : (0 : ℝ) < (n₂ : ℝ) := by exact_mod_cast hn₂
      rw [if_pos (And.intro hq hn₁), if_pos (And.intro hq hn₂),
        div_sqrt_le_div_sqrt_iff _ _ _ _ _ hqR hn₂R hn₁R]
      rcases le_or_lt 0 d₁ with hd₁ | hd₁ <;> rcases le_or_lt 0 d₂ with hd₂ | hd₂
      · have hd₁R : (0 : ℝ) ≤ (d₁ : ℝ) := by exact_mod_cast hd₁
        have hd₂R : (0 : ℝ) ≤ (d₂ : ℝ) := by exact_mod_cast hd₂
        simp only [simGE, hq, hn₁, hn₂, true_and, and_self, if_true, hd₁, hd₂,
          decide_eq_true_eq,
          real_mul_sqrt_le_iff _ _ _ _ hd₂R hd₁R (le_of_lt hn₂R)]
        constructor <;> intro h <;> exact_mod_cast h
      · have hd₂R : (d₂ : ℝ) < 0 := by exact_mod_cast hd₂
        have hd₁R : (0 : ℝ) ≤ (d₁ : ℝ) := by exact_mod_cast hd₁
        simp only [simGE, hq, hn₁, hn₂, true_and, and_self, if_true, hd₁,
          not_le.mpr hd₂, if_false, true_iff]
        exact le_trans
          (le_of_lt (mul_neg_of_neg_of_pos hd₂R (Real.sqrt_pos.mpr hn₁R)))
          (mul_nonneg hd₁R (Real.sqrt_nonneg _))
      · have hd₁R : (d₁ : ℝ) < 0 := by exact_mod_cast hd₁
        have hd₂R : (0 : ℝ) ≤ (d₂ : ℝ) := by exact_mod_cast hd₂
        simp only [simGE, hq, hn₁, hn₂, true_and, and_self, if_true,
          not_le.mpr hd₁, hd₂, if_false, Bool.false_eq_true, false_iff, not_le]
        exact lt_of_lt_of_le
          (mul_neg_of_neg_of_pos hd₁R (Real.sqrt_pos.mpr hn₂R))
          (mul_nonneg hd₂R (Real.sqrt_nonneg _))
      · have hd₁R : (d₁ : ℝ) < 0 := by exact_mod_cast hd₁
        have hd₂R : (d₂ : ℝ) < 0 := by exact_mod_cast hd₂
        simp only [simGE, hq, hn₁, hn₂, true_and, and_self, if_true,
          not_le.mpr hd₁, not_le.mpr hd₂, if_false, decide_eq_true_eq]
        have key := real_mul_sqrt_le_iff (-(d₁ : ℝ)) (-(d₂ : ℝ)) ((n₂ : ℝ))
          ((n₁ : ℝ)) (by linarith) (by linarith) (le_of_lt hn₁R)
        rw [show (-(d₁ : ℝ)) ^ 2 = ((d₁ : ℝ)) ^ 2 by ring,
          show (-(d₂ : ℝ)) ^ 2 = ((d₂ : ℝ)) ^ 2 by ring] at key
        constructor
        · intro h
          have hR : ((d₁ : ℝ)) ^ 2 * (n₂ : ℝ) ≤ ((d₂ : ℝ)) ^ 2 * (n₁ : ℝ) := by
            exact_mod_cast h
          have hh := key.mpr hR
          linarith [hh]
        · intro h
          have hh := key.mp (by linarith [h])
          exact_mod_cast hh
    · have hqR : (0 : ℝ) < (qn : ℝ) := by exact_mod_cast hq
      have hn₁R : (0 : ℝ) < (n₁ : ℝ) := by exact_mod_cast hn₁
      have hden : 0 < Real.sqrt (qn : ℝ) * Real.sqrt (n₁ : ℝ) :=
        mul_pos (Real.sqrt_pos.mpr hqR) (Real.sqrt_pos.mpr hn₁R)
      rw [if_pos (And.intro hq hn₁), if_neg (fun h : 0 < qn ∧ 0 < n₂ => hn₂ h.2)]
      rcases le_or_lt 0 d₁ with hd₁ | hd₁
      · have hd₁R : (0 : ℝ) ≤ (d₁ : ℝ) := by exact_mod_cast hd₁
        simp only [simGE, hq, hn₁, hn₂, true_and, and_self, and_false,
          if_true, if_false, hd₁, le_refl, decide_eq_true_eq]
        constructor
        · intro _
          exact div_nonneg hd₁R (le_of_lt hden)
        · intro _
          nlinarith [sq_nonneg d₁, hn₁]
      · simp only [simGE, hq, hn₁, hn₂, true_and, and_self, and_false,
          if_true, if_false, not_le.mpr hd₁, le_refl, Bool.false_eq_true,
          false_iff, not_le]
        have hd₁R : (d₁ : ℝ) < 0 := by exact_mod_cast hd₁
        exact div_neg_of_neg_of_pos hd₁R hden
    · have hqR : (0 : ℝ) < (qn : ℝ) := by exact_mod_cast hq
      have hn₂R : (0 : ℝ) < (n₂ : ℝ) := by exact_mod_cast hn₂
      have hden : 0 < Real.sqrt (qn : ℝ) * Real.sqrt (n₂ : ℝ) :=
        mul_pos (Real.sqrt_pos.mpr hqR) (Real.sqrt_pos.mpr hn₂R)
      rw [if_neg (fun h : 0 < qn ∧ 0 < n₁ => hn₁ h.2), if_pos (And.intro hq hn₂)]
      rcases le_or_lt 0 d₂ with hd₂ | hd₂
      · have hd₂R : (0 : ℝ) ≤ (d₂ : ℝ) := by exact_mod_cast hd₂
        simp only [simGE, hq, hn₁, hn₂, true_and, and_self, and_false,
          if_true, if_false, hd₂, le_refl, decide_eq_true_eq]
        constructor
        · intro h
          have h' : d₂ ^ 2 ≤ 0 := by nlinarith [h]
          have h0 : d₂ ^ 2 = 0 := le_antisymm h' (sq_nonneg d₂)
          have hz : d₂ = 0 := sq_eq_zero_iff.mp h0
          subst hz
          simp
        · intro h
          have hle : (d₂ : ℝ) ≤ 0 := by
            by_contra hh
            push_neg at hh
            exact absurd h (not_le.mpr (div_pos hh hden))
          have hz : d₂ = 0 := le_antisymm (by exact_mod_cast hle) hd₂
          subst hz
          norm_num
      · simp only [simGE, hq, hn₁, hn₂, true_and, and_self, and_false,
          if_true, if_false, not_le.mpr hd₂, le_refl, true_iff]
        have hd₂R : (d₂ : ℝ) < 0 := by exact_mod_cast hd₂
        exact le_of_lt (div_neg_of_neg_of_pos hd₂R hden)
    · rw [if_neg (fun h : 0 < qn ∧ 0 < n₁ => hn₁ h.2), if_neg (fun h : 0 < qn ∧ 0 < n₂ => hn₂ h.2)]
      simp [simGE, hq, hn₁, hn₂]
  · have h₁ : ¬(0 < qn ∧ 0 < n₁) := fun h => hq h.1
    have h₂ : ¬(0 < qn ∧ 0 < n₂) := fun h => hq h.1
    rw [if_neg h₁, if_neg h₂]
    simp [simGE, hq]


theorem hitLE_iff (qn : ℚ) (a b : Hit) :
    hitLE qn a b = true ↔
      (scoreVal qn b.d b.n < scoreVal qn a.d a.n ∨
        (scoreVal qn a.d a.n = scoreVal qn b.d b.n ∧ a.idx ≤ b.idx)) := by
  unfold hitLE
  by_cases hab : simGE qn a.d a.n b.d b.n = true
  · by_cases hba : simGE qn b.d b.n a.d a.n = true
    · rw [if_pos hab, if_pos hba, decide_eq_true_eq]
      have h1 := (simGE_iff_scoreVal qn a.d a.n b.d b.n).mp hab
      have h2 := (simGE_iff_scoreVal qn b.d b.n a.d a.n).mp hba
      have heq : scoreVal qn a.d a.n = scoreVal qn b.d b.n := le_antisymm h2 h1
      constructor
      · intro h
        exact Or.inr ⟨heq, h⟩
      · rintro (h | ⟨-, h⟩)
        · exact absurd h (not_lt.mpr h2)
        · exact h
    · rw [if_pos hab, if_neg hba]
      have h1 := (simGE_iff_scoreVal qn a.d a.n b.d b.n).mp hab
      have h2 : ¬ scoreVal qn a.d a.n ≤ scoreVal qn b.d b.n := fun hc =>
        hba ((simGE_iff_scoreVal qn b.d b.n a.d a.n).mpr hc)
      exact iff_of_true rfl (Or.inl (lt_of_le_not_le h1 h2))
  · rw [if_neg hab]
    have h1 : ¬ scoreVal qn b.d b.n ≤ scoreVal qn a.d a.n := fun hc =>
      hab ((simGE_iff_scoreVal qn a.d a.n b.d b.n).mpr hc)
    refine iff_of_false (by simp) ?_
    rintro (h | ⟨heq, -⟩)
    · exact h1 (le_of_lt h)
    · exact h1 (le_of_eq heq.symm)

theorem hitBefore_iff (qn : ℚ) (a b : Hit) :
    hitBefore qn a b ↔
      (scoreVal qn b.d b.n < scoreVal qn a.d a.n ∨
        (scoreVal qn a.d a.n = scoreVal qn b.d b.n ∧ a.idx ≤ b.idx)) :=
  hitLE_iff qn a b

instance (qn : ℚ) : IsTotal Hit (hitBefore qn) where
  total a b := by
    rw [hitBefore_iff, hitBefore_iff]
    rcases lt_trichotomy (scoreVal qn a.d a.n) (scoreVal qn b.d b.n) with h | h | h
    · exact Or.inr (Or.inl h)
    · rcases Nat.le_total a.idx b.idx with hi | hi
      · exact Or.inl (Or.inr ⟨h, hi⟩)
      · exact Or.inr (Or.inr ⟨h.symm, hi⟩)
    · exact Or.inl (Or.inl h)

instance (qn : ℚ) : IsTrans Hit (hitBefore qn) where
  trans a b c hab hbc := by
    rw [hitBefore_iff] at hab hbc ⊢
    rcases hab with h1 | ⟨e1, i1⟩
    · rcases hbc with h2 | ⟨e2, i2⟩
      · exact Or.inl (lt_trans h2 h1)
      · exact Or.inl (e2 ▸ h1)
    · rcases hbc with h2 | ⟨e2, i2⟩
      · exact Or.inl (by rw [e1]; exact h2)
      · exact Or.inr ⟨e1.trans e2, le_trans i1 i2⟩

theorem rank_sorted (s : SimpleVectorStore) (q : Vec) :
    (s.rank q).Pairwise (hitBefore (normSq q)) := by
  unfold SimpleVectorStore.rank
  exact List.sorted_insertionSort _ _

theorem length_rank (s : SimpleVectorStore) (q : Vec) :
    (s.rank q).length = s.entries.length := by
  unfold SimpleVectorStore.rank
  rw [List.length_insertionSort, List.length_map, List.enum_length]

theorem rank_idx_perm (s : SimpleVectorStore) (q : Vec) :
    ((s.rank q).map Hit.idx).Perm (List.range s.entries.length) := by
  unfold SimpleVectorStore.rank
  have hp := (List.perm_insertionSort (hitBefore (normSq q))
    (s.entries.enum.map fun p => Hit.mk (dot q p.2.1) (normSq p.2.1) p.1 p.2.2)).map Hit.idx
  refine hp.trans ?_
  rw [List.map_map, show (Hit.idx ∘ fun p : ℕ × (Vec × Metadata) =>
    Hit.mk (dot q p.2.1) (normSq p.2.1) p.1 p.2.2) = Prod.fst from rfl,
    List.enum_map_fst]

theorem rank_idx_ne (s : SimpleVectorStore) (q : Vec) :
    (s.rank q).Pairwise fun a b => a.idx ≠ b.idx := by
  have h : ((s.rank q).map Hit.idx).Nodup :=
    ((rank_idx_perm s q).nodup_iff).mpr (List.nodup_range _)
  exact List.pairwise_map.mp h

theorem rank_pairwise_ordered (s : SimpleVectorStore) (q : Vec) :
    (s.rank q).Pairwise (fun a b =>
      scoreVal (normSq q) b.d b.n ≤ scoreVal (normSq q) a.d a.n ∧
      (scoreVal (normSq q) a.d a.n = scoreVal (normSq q) b.d b.n →
        a.idx < b.idx)) := by
  have h := (rank_sorted s q).and (rank_idx_ne s q)
  refine h.imp ?_
  rintro a b ⟨hb, hne⟩
  rw [hitBefore_iff] at hb
  rcases hb with h1 | ⟨e1, i1⟩
  · refine ⟨le_of_lt h1, fun he => absurd h1 ?_⟩
    rw [he]
    exact lt_irrefl _
  · exact ⟨le_of_eq e1.symm, fun _ => lt_of_le_of_ne i1 hne⟩

theorem rank_hit_data (s : SimpleVectorStore) (q : Vec) :
    ∀ h ∈ s.rank q, ∃ e : Vec × Metadata, s.entries[h.idx]? = some e ∧
      h.d = dot q e.1 ∧ h.n = normSq e.1 ∧ h.metadata = e.2 ∧
      scoreVal (normSq q) h.d h.n = cosineSim q e.1 := by
  intro h hmem
  unfold SimpleVectorStore.rank at hmem
  rw [(List.perm_insertionSort _ _).mem_iff, List.mem_map] at hmem
  obtain ⟨p, hp, rfl⟩ := hmem
  rw [List.mem_enum_iff_getElem?] at hp
  exact ⟨p.2, hp, rfl, rfl, rfl, rfl⟩


theorem length_mkMetadatas (docName : String) (cs : List String) :
    (mkMetadatas docName cs).length = cs.length := by
  simp [mkMetadatas]

theorem getElem?_mkMetadatas (docName : String) (cs : List String) (i : ℕ)
    (c : String) (h : cs[i]? = some c) :
    (mkMetadatas docName cs)[i]? = some ⟨docName, i, c⟩ := by
  simp [mkMetadatas, List.getElem?_map, List.getElem?_enum, h]

theorem add_mismatch_eq (s : SimpleVectorStore) (e : List Vec)
    (m : List Metadata) (h : e.length ≠ m.length) :
    s.add e m = Except.error ("length mismatch") := by
  unfold SimpleVectorStore.add
  rw [if_neg h]

theorem add_ok_inv (s s' : SimpleVectorStore) (e : List Vec)
    (m : List Metadata) (h : s.add e m = Except.ok s') :
    e.length = m.length ∧ s' = ⟨s.entries ++ e.zip m⟩ := by
  unfold SimpleVectorStore.add at h
  by_cases hl : e.length = m.length
  · rw [if_pos hl] at h
    cases h
    exact ⟨hl, rfl⟩
  · rw [if_neg hl] at h
    cases h

theorem processFile_not_ok_eq (C : Collab) (st : Session) (uf : UploadedFile)
    (h : (processFile C st uf).2 ≠ FileOutcome.ok) :
    (processFile C st uf).1 = st := by
  unfold processFile at h ⊢
  cases hE : C.extract uf with
  | error e => rfl
  | ok p =>
    obtain ⟨text, ftype⟩ := p
    rw [hE] at h
    dsimp only at h ⊢
    by_cases ht : text = ""
    · rw [if_pos ht]
    · rw [if_neg ht] at h ⊢
      cases hM : C.embed (C.chunk text) with
      | error e => rfl
      | ok embeddings =>
        rw [hM] at h
        dsimp only at h ⊢
        cases hA : st.vs.add embeddings (mkMetadatas uf.name (C.chunk text)) with
        | error e => rfl
        | ok vs' =>
          rw [hA] at h
          dsimp only at h
          exact absurd rfl h

theorem processFile_ok_shape (C : Collab) (st : Session) (uf : UploadedFile)
    (text ftype : String) (embeddings : List Vec)
    (hE : C.extract uf = Except.ok (text, ftype)) (ht : text ≠ "")
    (hM : C.embed (C.chunk text) = Except.ok embeddings)
    (hL : embeddings.length = (C.chunk text).length) :
    processFile C st uf =
      ({ vs := ⟨st.vs.entries ++
            embeddings.zip (mkMetadatas uf.name (C.chunk text))⟩,
         documents := st.documents ++
           [⟨uf.name, text.length, (C.chunk text).length, C.now⟩] },
       FileOutcome.ok) := by
  unfold processFile
  rw [hE]
  dsimp only
  rw [if_neg ht, hM]
  dsimp only
  rw [SimpleVectorStore.add, if_pos (by rw [length_mkMetadatas]; exact hL)]

theorem processFile_addError_shape (C : Collab) (st : Session)
    (uf : UploadedFile) (text ftype : String) (embeddings : List Vec)
    (hE : C.extract uf = Except.ok (text, ftype)) (ht : text ≠ "")
    (hM : C.embed (C.chunk text) = Except.ok embeddings)
    (hL : embeddings.length ≠ (C.chunk text).length) :
    processFile C st uf =
      (st, FileOutcome.addError (("Error adding vectors for ") ++ uf.name ++
        (": ") ++ ("length mismatch"))) := by
  unfold processFile
  rw [hE]
  dsimp only
  rw [if_neg ht, hM]
  dsimp only
  rw [add_mismatch_eq _ _ _ (by rw [length_mkMetadatas]; exact hL)]

theorem processFile_ok_inv (C : Collab) (st : Session) (uf : UploadedFile)
    (h : (processFile C st uf).2 = FileOutcome.ok) :
    ∃ r : DocRecord,
      (processFile C st uf).1.documents = st.documents ++ [r] ∧
      (processFile C st uf).1.vs.entries.length =
        st.vs.entries.length + r.chunks := by
  unfold processFile at h ⊢
  cases hE : C.extract uf with
  | error e =>
      rw [hE] at h
      simp at h
  | ok p =>
    obtain ⟨text, ftype⟩ := p
    rw [hE] at h
    dsimp only at h ⊢
    by_cases ht : text = ""
    · rw [if_pos ht] at h
      simp at h
    · rw [if_neg ht] at h ⊢
      cases hM : C.embed (C.chunk text) with
      | error e =>
          rw [hM] at h
          simp at h
      | ok embeddings =>
        rw [hM] at h
        dsimp only at h ⊢
        cases hA : st.vs.add embeddings (mkMetadatas uf.name (C.chunk text)) with
        | error e =>
            rw [hA] at h
            simp at h
        | ok vs' =>
          dsimp only
          obtain ⟨hl, rfl⟩ := add_ok_inv _ _ _ _ hA
          refine ⟨⟨uf.name, text.length, (C.chunk text).length, C.now⟩, rfl, ?_⟩
          simp [List.length_zip, hl, length_mkMetadatas]

theorem processFiles_length (C : Collab) (st : Session)
    (ufs : List UploadedFile) :
    (processFiles C st ufs).2.length = ufs.length := by
  induction ufs generalizing st with
  | nil => rfl
  | cons uf rest ih => simp [processFiles, ih]

theorem processFiles_cons_fail (C : Collab) (st : Session)
    (uf : UploadedFile) (rest : List UploadedFile)
    (h : (processFile C st uf).2 ≠ FileOutcome.ok) :
    processFiles C st (uf :: rest) =
      ((processFiles C st rest).1,
        (processFile C st uf).2 :: (processFiles C st rest).2) := by
  have h1 := processFile_not_ok_eq C st uf h
  simp [processFiles, h1]

theorem consistent_processFile (C : Collab) (st : Session)
    (uf : UploadedFile) (h : consistent st) :
    consistent (processFile C st uf).1 := by
  by_cases ho : (processFile C st uf).2 = FileOutcome.ok
  · obtain ⟨r, hd, hv⟩ := processFile_ok_inv C st uf ho
    unfold consistent at h ⊢
    rw [hd, hv, List.map_append, List.sum_append, h]
    simp
  · rw [processFile_not_ok_eq C st uf ho]
    exact h

theorem consistent_processFiles (C : Collab) (st : Session)
    (ufs : List UploadedFile) (h : consistent st) :
    consistent (processFiles C st ufs).1 := by
  induction ufs generalizing st with
  | nil => exact h
  | cons uf rest ih =>
      simp only [processFiles]
      exact ih _ (consistent_processFile C st uf h)


/-! ## Concrete fixtures -/

/-- The three-entry store of the spec's example scenario: embeddings
`[1,0]`, `[0,1]`, `[1,0]` inserted in that order. -/
def exampleStore : SimpleVectorStore :=
  ⟨[([1, 0], ⟨("doc"), 0, ("alpha")⟩),
    ([0, 1], ⟨("doc"), 1, ("beta")⟩),
    ([1, 0], ⟨("doc"), 2, ("gamma")⟩)]⟩

/-- A one-entry store used to instantiate universally quantified results. -/
def wStore : SimpleVectorStore := ⟨[([1], ⟨("notes.txt"), 0, ("hello")⟩)]⟩

/-- A concrete uploaded file. -/
def wFile : UploadedFile := ⟨("notes.txt"), ("hello")⟩

/-- A collaborator bundle whose calls all succeed. -/
def wCollabOk : Collab where
  extract := fun uf => Except.ok (uf.content, ("txt"))
  chunk := fun t => [t]
  embed := fun ts => Except.ok (ts.map fun _ => [1])
  generate := fun _ _ => Except.ok ("fine")
  now := ("2026-10-12 00:00")

/-- A collaborator bundle whose generator fails. -/
def wCollabGenFail : Collab :=
  { wCollabOk with generate := fun _ _ => Except.error ("boom") }

/-- A collaborator bundle whose embedder returns the wrong number of
vectors. -/
def wCollabShortEmbed : Collab :=
  { wCollabOk with embed := fun _ => Except.ok [] }

/-- A collaborator bundle whose extractor finds no text. -/
def wCollabEmptyText : Collab :=
  { wCollabOk with extract := fun _ => Except.ok (("", ("txt"))) }

/-- A collaborator bundle whose extractor fails. -/
def wCollabExtractFail : Collab :=
  { wCollabOk with extract := fun _ => Except.error ("bad file") }

/-! ## Claim theorems -/

/-- C1: for every store state and every positive `top_k`,
`search(query_embedding, top_k)` returns exactly `min(top_k, store_size)`
hits (each a similarity score plus metadata record); on an empty store the
result is empty and this is not an error, and on a non-empty store with
`top_k ≥ 1` the result is non-empty. -/
theorem search_returns_min_topk (s : SimpleVectorStore) (q : Vec)
    (top_k : ℕ) (hk : 0 < top_k) :
    (s.search q top_k).length = min top_k s.entries.length ∧
    (s.entries = [] → s.search q top_k = []) ∧
    (s.entries ≠ [] → s.search q top_k ≠ []) := by
  have hlen : (s.search q top_k).length = min top_k s.entries.length := by
    unfold SimpleVectorStore.search
    rw [List.length_take, length_rank]
  refine ⟨hlen, ?_, ?_⟩
  · intro h
    rw [← List.length_eq_zero, hlen, h]
    simp
  · intro h hc
    rw [hc] at hlen
    simp only [List.length_nil] at hlen
    have hpos : 0 < s.entries.length := List.length_pos.mpr h
    omega

theorem search_returns_min_topk_witness :
    0 < 1 ∧
    ((wStore.search [1] 1).length = min 1 wStore.entries.length ∧
      (wStore.entries = [] → wStore.search [1] 1 = []) ∧
      (wStore.entries ≠ [] → wStore.search [1] 1 ≠ [])) :=
  ⟨Nat.one_pos, search_returns_min_topk wStore [1] 1 Nat.one_pos⟩

/-- C2: the hits returned by `search` are sorted by descending cosine
similarity score, ties broken by insertion order (earlier entry strictly
first); each hit's score data is the cosine similarity of the stored entry
at its insertion index, and its metadata is that entry's record.  On the
spec's example store (embeddings `[1,0]`, `[0,1]`, `[1,0]`), querying
`[1,0]` with `top_k = 2` returns entries 1 and 3 (insertion indices 0 and
2) in that order. -/
theorem search_sorted_stable :
    (∀ (s : SimpleVectorStore) (q : Vec) (top_k : ℕ),
      (s.search q top_k).Pairwise (fun a b =>
        scoreVal (normSq q) b.d b.n ≤ scoreVal (normSq q) a.d a.n ∧
        (scoreVal (normSq q) a.d a.n = scoreVal (normSq q) b.d b.n →
          a.idx < b.idx)) ∧
      ∀ h ∈ s.search q top_k, ∃ e : Vec × Metadata,
        s.entries[h.idx]? = some e ∧
        scoreVal (normSq q) h.d h.n = cosineSim q e.1 ∧
        h.metadata = e.2) ∧
    (exampleStore.search [1, 0] 2).map Hit.idx = [0, 2] := by
  constructor
  · intro s q top_k
    constructor
    · exact List.Pairwise.sublist (List.take_sublist _ _)
        (rank_pairwise_ordered s q)
    · intro h hmem
      have hmem' : h ∈ s.rank q := (List.take_sublist _ _).subset hmem
      obtain ⟨e, h1, _h2, _h3, h4, h5⟩ := rank_hit_data s q h hmem'
      exact ⟨e, h1, h5, h4⟩
  · unfold SimpleVectorStore.search SimpleVectorStore.rank exampleStore
    norm_num [List.insertionSort, List.orderedInsert, hitBefore, hitLE, simGE,
      dot, normSq, List.enum, List.enumFrom]

/-- C3: a stored embedding of zero norm is given similarity exactly `0`
(rather than a division error: the score function is total and the guard
explicit), and such an entry never ranks above an entry with strictly
positive similarity: whenever a zero-norm hit comes first in the ranking
(or in any search result), every later hit has score `≤ 0`. -/
theorem zero_norm_entry_safe :
    (∀ (q e : Vec), normSq e = 0 → cosineSim q e = 0) ∧
    (∀ (s : SimpleVectorStore) (q : Vec),
      (s.rank q).Pairwise (fun a b => a.n = 0 →
        scoreVal (normSq q) b.d b.n ≤ 0)) ∧
    (∀ (s : SimpleVectorStore) (q : Vec) (top_k : ℕ),
      (s.search q top_k).Pairwise (fun a b => a.n = 0 →
        scoreVal (normSq q) b.d b.n ≤ 0)) := by
  have hz : ∀ (qn d : ℚ), scoreVal qn d 0 = 0 := by
    intro qn d
    unfold scoreVal
    rw [if_pos rfl]
  have hrank : ∀ (s : SimpleVectorStore) (q : Vec),
      (s.rank q).Pairwise (fun a b => a.n = 0 →
        scoreVal (normSq q) b.d b.n ≤ 0) := by
    intro s q
    refine (rank_pairwise_ordered s q).imp ?_
    rintro a b ⟨hle, -⟩ ha
    rw [ha, hz] at hle
    exact hle
  refine ⟨?_, hrank, ?_⟩
  · intro q e h
    unfold cosineSim
    rw [h, hz]
  · intro s q top_k
    exact List.Pairwise.sublist (List.take_sublist _ _) (hrank s q)


/-- C4: calling `add` with mismatched-length inputs fails fast with the
length-mismatch error (never returns a new store, so prior entries are
unchanged), and during upload this failure is reported per file: the loop
converts it into an `addError` message for that file and leaves the
session unchanged. -/
theorem add_length_mismatch_fails (s : SimpleVectorStore) (e : List Vec)
    (m : List Metadata) (h : e.length ≠ m.length) :
    s.add e m = Except.error ("length mismatch") ∧
    (∀ s' : SimpleVectorStore, s.add e m ≠ Except.ok s') ∧
    ∀ (C : Collab) (st : Session) (uf : UploadedFile) (text ftype : String),
      C.extract uf = Except.ok (text, ftype) → text ≠ "" →
      C.embed (C.chunk text) = Except.ok e →
      e.length ≠ (C.chunk text).length →
      processFile C st uf =
        (st, FileOutcome.addError (("Error adding vectors for ") ++ uf.name ++
          (": ") ++ ("length mismatch"))) := by
  refine ⟨add_mismatch_eq s e m h, ?_, ?_⟩
  · intro s' hc
    rw [add_mismatch_eq s e m h] at hc
    exact Except.noConfusion hc
  · intro C st uf text ftype hE ht hM hL
    exact processFile_addError_shape C st uf text ftype e hE ht hM hL

theorem add_length_mismatch_fails_witness :
    ([[1]] : List Vec).length ≠ ([] : List Metadata).length ∧
    wStore.add [[1]] [] = Except.error ("length mismatch") :=
  ⟨by decide, (add_length_mismatch_fails wStore [[1]] [] (by decide)).1⟩

/-- C5: every file in a batch gets exactly one reported outcome; a file
whose processing fails (any non-`ok` outcome, i.e. any caught collaborator
failure) leaves the session unchanged, and the rest of the batch is then
processed exactly as if that file had not been there — so one file's
failure never prevents processing of subsequent files. -/
theorem batch_failure_isolation :
    (∀ (C : Collab) (st : Session) (ufs : List UploadedFile),
      (processFiles C st ufs).2.length = ufs.length) ∧
    (∀ (C : Collab) (st : Session) (uf : UploadedFile),
      (processFile C st uf).2 ≠ FileOutcome.ok →
        (processFile C st uf).1 = st) ∧
    (∀ (C : Collab) (st : Session) (uf : UploadedFile)
      (rest : List UploadedFile),
      (processFile C st uf).2 ≠ FileOutcome.ok →
      processFiles C st (uf :: rest) =
        ((processFiles C st rest).1,
          (processFile C st uf).2 :: (processFiles C st rest).2)) :=
  ⟨processFiles_length, processFile_not_ok_eq, processFiles_cons_fail⟩

/-- C6: the metadata record stored for the i-th chunk of a file carries
the owning document's name, the zero-based chunk index `i`, and the
chunk's raw text; a successful file appends to the store exactly its
embeddings zipped with these records. -/
theorem chunk_metadata_fields :
    (∀ (docName : String) (cs : List String),
      (mkMetadatas docName cs).length = cs.length ∧
      ∀ (i : ℕ) (c : String), cs[i]? = some c →
        (mkMetadatas docName cs)[i]? = some ⟨docName, i, c⟩) ∧
    ∀ (C : Collab) (st : Session) (uf : UploadedFile) (text ftype : String)
      (embeddings : List Vec),
      C.extract uf = Except.ok (text, ftype) → text ≠ "" →
      C.embed (C.chunk text) = Except.ok embeddings →
      embeddings.length = (C.chunk text).length →
      (processFile C st uf).1.vs.entries =
        st.vs.entries ++ embeddings.zip (mkMetadatas uf.name (C.chunk text)) := by
  constructor
  · intro docName cs
    exact ⟨length_mkMetadatas docName cs,
      fun i c hc => getElem?_mkMetadatas docName cs i c hc⟩
  · intro C st uf text ftype embeddings hE ht hM hL
    rw [processFile_ok_shape C st uf text ftype embeddings hE ht hM hL]

/-- C7: when answer generation fails, the session does not crash: the
error is reported as a visible message and the fixed string
"Error: Unable to generate answer." is substituted as the answer, which is
still displayed. -/
theorem generation_failure_recovery (C : Collab) (question : String)
    (hits : List Hit) (e : String)
    (h : C.generate question
      (hits.map fun hh => (hh.metadata.text, hh.metadata.document)) =
        Except.error e) :
    answerFor C question hits =
      (("Error: Unable to generate answer."),
        some (("Answer generation error: ") ++ e)) := by
  unfold answerFor
  dsimp only
  rw [h]

theorem generation_failure_recovery_witness :
    wCollabGenFail.generate ("q")
      (([] : List Hit).map fun hh => (hh.metadata.text, hh.metadata.document)) =
        Except.error ("boom") ∧
    answerFor wCollabGenFail ("q") [] =
      (("Error: Unable to generate answer."),
        some (("Answer generation error: ") ++ ("boom"))) :=
  ⟨rfl, generation_failure_recovery wCollabGenFail ("q") [] ("boom") rfl⟩


/-- C8: the session's document list and the vector store stay consistent
through every upload/clear operation: the initial session is consistent,
each processed file and each batch preserve consistency (store size equals
the sum of recorded chunk counts), a document record is appended only when
the file's store add succeeded — with its `chunks` field equal to the
number of entries (metadata records) added for that file — and clearing
resets store and document list together to empty. -/
theorem session_store_consistency :
    consistent initSession ∧
    (∀ (C : Collab) (st : Session) (uf : UploadedFile),
      consistent st → consistent (processFile C st uf).1) ∧
    (∀ (C : Collab) (st : Session) (ufs : List UploadedFile),
      consistent st → consistent (processFiles C st ufs).1) ∧
    (∀ (C : Collab) (st : Session) (uf : UploadedFile),
      (processFile C st uf).2 ≠ FileOutcome.ok →
        (processFile C st uf).1.documents = st.documents) ∧
    (∀ (C : Collab) (st : Session) (uf : UploadedFile),
      (processFile C st uf).2 = FileOutcome.ok →
      ∃ r : DocRecord,
        (processFile C st uf).1.documents = st.documents ++ [r] ∧
        (processFile C st uf).1.vs.entries.length =
          st.vs.entries.length + r.chunks) ∧
    (∀ st : Session, clearAll st = initSession ∧ consistent (clearAll st)) := by
  refine ⟨?_, consistent_processFile, consistent_processFiles, ?_,
    processFile_ok_inv, ?_⟩
  · simp [consistent, initSession, SimpleVectorStore.empty]
  · intro C st uf h
    rw [processFile_not_ok_eq C st uf h]
  · intro st
    exact ⟨rfl, by simp [consistent, clearAll, SimpleVectorStore.reset]⟩

/-- C9: an uploaded file whose extracted text is empty is skipped with a
warning outcome: the session (store and document list) is unchanged by it,
the remaining batch is processed as if it were absent, and it is not
counted in the processed total. -/
theorem empty_text_file_skipped (C : Collab) (st : Session)
    (uf : UploadedFile) (ftype : String)
    (h : C.extract uf = Except.ok (("", ftype))) :
    processFile C st uf =
      (st, FileOutcome.noText (("No text found in ") ++ uf.name)) ∧
    ∀ rest : List UploadedFile,
      processFiles C st (uf :: rest) =
        ((processFiles C st rest).1,
          FileOutcome.noText (("No text found in ") ++ uf.name) ::
            (processFiles C st rest).2) ∧
      processedCount (processFiles C st (uf :: rest)).2 =
        processedCount (processFiles C st rest).2 := by
  have h1 : processFile C st uf =
      (st, FileOutcome.noText (("No text found in ") ++ uf.name)) := by
    unfold processFile
    rw [h]
    dsimp only
    rw [if_pos rfl]
  refine ⟨h1, ?_⟩
  intro rest
  have h2 : processFiles C st (uf :: rest) =
      ((processFiles C st rest).1,
        FileOutcome.noText (("No text found in ") ++ uf.name) ::
          (processFiles C st rest).2) := by
    have h3 := processFiles_cons_fail C st uf rest (by rw [h1]; simp)
    rw [h1] at h3
    exact h3
  refine ⟨h2, ?_⟩
  rw [h2]
  unfold processedCount
  simp [List.filter_cons]

theorem empty_text_file_skipped_witness :
    wCollabEmptyText.extract wFile = Except.ok (("", ("txt"))) ∧
    processFile wCollabEmptyText initSession wFile =
      (initSession,
        FileOutcome.noText (("No text found in ") ++ wFile.name)) :=
  ⟨rfl, (empty_text_file_skipped wCollabEmptyText initSession wFile ("txt")
    rfl).1⟩

/-- C10: the top_k value the question form passes to `search` is the
slider's value: always between 1 and 10 inclusive, defaulting to 4; the
UI never invokes the store's search with `top_k = 0` or `top_k > 10`. -/
theorem ui_topk_in_range :
    (∀ choice : Option ℕ, 1 ≤ uiTopK choice ∧ uiTopK choice ≤ 10) ∧
    uiTopK none = 4 ∧
    ∀ (C : Collab) (st : Session) (question : String) (choice : Option ℕ),
      (queryStep C st question choice).1 = [] ∨
      ∃ q : Vec, (queryStep C st question choice).1 =
        st.vs.search q (uiTopK choice) := by
  refine ⟨?_, rfl, ?_⟩
  · intro choice
    cases choice with
    | none =>
        constructor <;> norm_num [uiTopK, sliderVal]
    | some v =>
        unfold uiTopK sliderVal
        exact ⟨le_max_left 1 _, max_le (by norm_num) (min_le_right v 10)⟩
  · intro C st question choice
    unfold queryStep
    cases C.embed [question] with
    | error e => exact Or.inl rfl
    | ok qs =>
        cases qs with
        | nil => exact Or.inl rfl
        | cons q rest => exact Or.inr ⟨q, rfl⟩

end StudyMate
